import Mathlib

/-!
Verification of the lumonitor BrightnessController against its specification.

The Python source (src/lumonitor.py) is shallowly embedded below.  Strings are
modelled as `List Char`; Python floats as `ℚ`; the per-user cache directory as
a function from file names to file states; the outcomes of shelled-out
commands (`ddcutil`, `xrandr`) as an explicit `CmdOutcome` parameter; Python
exceptions that escape a function as `Except PyErr`.  Exceptions that the
source catches are folded into the value-level control flow exactly where the
corresponding `except` clause sends them.
-/

/-! ## Python string primitives -/

abbrev StrL := List Char

def strL (s : String) : StrL := s.toList

/-- Python `str.strip()` (whitespace from both ends). -/
def pyStrip (s : StrL) : StrL :=
  ((s.dropWhile Char.isWhitespace).reverse.dropWhile Char.isWhitespace).reverse

def pyInGo : StrL → StrL → Bool
  | needle, [] => needle.isEmpty
  | needle, c :: cs => needle.isPrefixOf (c :: cs) || pyInGo needle cs

/-- Python `needle in hay` substring test. -/
def pyIn (needle hay : StrL) : Bool := pyInGo needle hay

/-- Python `str.split()` with no separator: split on whitespace runs, dropping
empty pieces. -/
def pyWords (s : StrL) : List StrL :=
  (s.splitOnP Char.isWhitespace).filter (fun w => !w.isEmpty)

/-- Python `str.replace(a, b)` for single characters. -/
def pyReplaceChar (a b : Char) (s : StrL) : StrL :=
  s.map (fun c => if c = a then b else c)

def pyTitleGo : Bool → StrL → StrL
  | _, [] => []
  | prevAlpha, c :: cs =>
    if c.isAlpha then
      (if prevAlpha then c.toLower else c.toUpper) :: pyTitleGo true cs
    else
      c :: pyTitleGo false cs

/-- Python `str.title()`: capitalise the first letter of each alphabetic run. -/
def pyTitle (s : StrL) : StrL := pyTitleGo false s

/-- Python `str.split(sep)` for a non-empty separator string, fuel-driven so
that it reduces in the kernel.  The fuel is always at least `s.length + 1`. -/
def splitSeqF : Nat → StrL → StrL → List StrL
  | 0, _, s => [s]
  | fuel + 1, sep, s =>
    match s with
    | [] => [[]]
    | c :: cs =>
      if sep ≠ [] ∧ sep.isPrefixOf (c :: cs) then
        [] :: splitSeqF fuel sep ((c :: cs).drop sep.length)
      else
        match splitSeqF fuel sep cs with
        | [] => [[c]]
        | h :: t => (c :: h) :: t

def pySplitSeq (sep s : StrL) : List StrL := splitSeqF (s.length + 1) sep s

/-! ## Python numeric literal parsing and formatting -/

def digVal (c : Char) : ℕ := c.toNat - '0'.toNat

def digitsToNat (ds : StrL) : ℕ := ds.foldl (fun a c => 10 * a + digVal c) 0

/-- Python `int(s)`: optional sign around a non-empty run of digits, with
surrounding whitespace tolerated; `none` models `ValueError`. -/
def pyInt (s : StrL) : Option ℤ :=
  match pyStrip s with
  | [] => none
  | c :: cs =>
    let p : ℤ × StrL :=
      if c = '+' then (1, cs) else if c = '-' then (-1, cs) else (1, c :: cs)
    if p.2 ≠ [] ∧ p.2.all Char.isDigit then some (p.1 * digitsToNat p.2) else none

/-- The exact rational value of a decimal literal
`(-1)^sgnNeg * intfrac * 10^(-fracLen) * 10^(±e)`, assembled with integer
arithmetic and a single `Rat.divInt`. -/
def decToQ (sgnNeg : Bool) (intfrac fracLen : ℕ) (expSgnNeg : Bool) (e : ℕ) : ℚ :=
  let n : ℤ := if sgnNeg then -(intfrac : ℤ) else (intfrac : ℤ)
  if expSgnNeg then Rat.divInt n ((10 ^ (fracLen + e) : ℕ) : ℤ)
  else Rat.divInt (n * ((10 ^ e : ℕ) : ℤ)) ((10 ^ fracLen : ℕ) : ℤ)

/-- Parse an optional exponent suffix into `(isNegative, magnitude)`. -/
def pyExpPart (rest : StrL) : Option (Bool × ℕ) :=
  match rest with
  | [] => some (false, 0)
  | e :: r =>
    if e = 'e' ∨ e = 'E' then
      match r with
      | [] => none
      | c :: cs =>
        let p : Bool × StrL :=
          if c = '+' then (false, cs) else if c = '-' then (true, cs) else (false, c :: cs)
        if p.2 ≠ [] ∧ p.2.all Char.isDigit then some (p.1, digitsToNat p.2) else none
    else none

def pyFloatCore (sgnNeg : Bool) (body : StrL) : Option ℚ :=
  let ds := body.takeWhile Char.isDigit
  let r1 := body.dropWhile Char.isDigit
  match r1 with
  | '.' :: r2 =>
    let fs := r2.takeWhile Char.isDigit
    let r3 := r2.dropWhile Char.isDigit
    if ds = [] ∧ fs = [] then none
    else (pyExpPart r3).map (fun p => decToQ sgnNeg (digitsToNat (ds ++ fs)) fs.length p.1 p.2)
  | _ =>
    if ds = [] then none
    else (pyExpPart r1).map (fun p => decToQ sgnNeg (digitsToNat ds) 0 p.1 p.2)

/-- Python `float(s)` restricted to finite decimal literals (optional sign,
digits, optional fraction, optional exponent); `none` models `ValueError`. -/
def pyFloat (s : StrL) : Option ℚ :=
  match pyStrip s with
  | [] => none
  | c :: cs =>
    if c = '+' then pyFloatCore false cs
    else if c = '-' then pyFloatCore true cs
    else pyFloatCore false (c :: cs)

/-- Round the fraction `n / d` (with `d > 0`) to the nearest integer, ties to
even: the rounding used by Python's fixed-point float formatting. -/
def rheFrac (n : ℤ) (d : ℕ) : ℤ :=
  let f := n.ediv d
  let r := n.emod d
  if 2 * r < (d : ℤ) then f
  else if (d : ℤ) < 2 * r then f + 1
  else if f % 2 = 0 then f else f + 1

/-- Round `100 * q` to the nearest integer, ties to even. -/
def rhe100 (q : ℚ) : ℤ := rheFrac (100 * q.num) q.den

def twoDigits (k : ℕ) : StrL := [Nat.digitChar (k / 10), Nat.digitChar (k % 10)]

def centsToChars (n : ℕ) : StrL :=
  Nat.toDigits 10 (n / 100) ++ '.' :: twoDigits (n % 100)

/-- Python `f"{q:.2f}"`. -/
def fmtQ2 (q : ℚ) : StrL :=
  if q.num < 0 then '-' :: centsToChars (rheFrac (-(100 * q.num)) q.den).toNat
  else centsToChars (rhe100 q).toNat

/-- Python `f"{q:.0f}"`. -/
def fmtQ0 (q : ℚ) : StrL :=
  if q.num < 0 then '-' :: Nat.toDigits 10 (rheFrac (-q.num) q.den).toNat
  else Nat.toDigits 10 (rheFrac q.num q.den).toNat

/-! ## Python dict as an insertion-ordered association list -/

def dictGet {V : Type} : List (StrL × V) → StrL → Option V
  | [], _ => none
  | (k1, v) :: t, k => if k1 = k then some v else dictGet t k

/-- Python `dict.get(k, d)`. -/
def dictGetD {V : Type} (l : List (StrL × V)) (k : StrL) (d : V) : V :=
  (dictGet l k).getD d

/-- Python `d[k] = v`: overwrite in place if the key exists, else append. -/
def dictInsert {V : Type} (k : StrL) (v : V) : List (StrL × V) → List (StrL × V)
  | [] => [(k, v)]
  | (k1, v1) :: t => if k1 = k then (k, v) :: t else (k1, v1) :: dictInsert k v t

/-! ## Data model -/

/-- A monitor record as built by `BrightnessController.get_monitors`. -/
structure Monitor where
  name : StrL
  display_name : StrL
  ddcutil_id : Option StrL
deriving DecidableEq

/-- State of one cache file: missing, readable with the given content, or
raising `IOError` on read. -/
inductive CacheFileState where
  | absent
  | present (content : StrL)
  | unreadable
deriving DecidableEq

/-- Outcome of one shelled-out command run with `check=True`: clean exit with
the given stdout, or `CalledProcessError` (non-zero exit). -/
inductive CmdOutcome where
  | ok (stdout : StrL)
  | fail
deriving DecidableEq

/-- Python exceptions that can escape an embedded function uncaught. -/
inductive PyErr where
  | zeroDivision
  | indexError
  | valueError
deriving DecidableEq

/-- The mutable state of a `BrightnessController` plus its cache directory. -/
structure Controller where
  use_ddcutil : Bool
  monitors : List Monitor
  brightness_cache : List (StrL × ℚ)
  pending_changes : List (StrL × (ℚ × ℕ))
  fs : StrL → CacheFileState
  fsWritable : Bool

/-! ## Embedded source functions -/

/-- `BrightnessController._get_cache_file` (the file name under the cache
directory): sanitise by replacing `/` and space with `_`. -/
def get_cache_file (monitor : StrL) : StrL :=
  strL "brightness_" ++ pyReplaceChar ' ' '_' (pyReplaceChar '/' '_' monitor)

/-- The body of `BrightnessController._read_cached_brightness` as a function
of the state of the cache file: `float` the stripped content and clamp to
`[0.0, 1.0]`; any `ValueError`/`IOError` (and a missing file) yields `None`. -/
def readFileState : CacheFileState → Option ℚ
  | .absent => none
  | .unreadable => none
  | .present s =>
    match pyFloat (pyStrip s) with
    | none => none
    | some v => some (max 0 (min 1 v))

/-- `BrightnessController._read_cached_brightness`. -/
def read_cached_brightness (st : Controller) (monitor : StrL) : Option ℚ :=
  readFileState (st.fs (get_cache_file monitor))

/-- `BrightnessController._write_cached_brightness`: write `f"{b:.2f}\n"`;
an `IOError` (modelled by `fsWritable = false`) is swallowed. -/
def write_cached_brightness (st : Controller) (monitor : StrL) (brightness : ℚ) :
    Controller :=
  if st.fsWritable then
    { st with fs := fun k =>
        if k = get_cache_file monitor then
          CacheFileState.present (fmtQ2 brightness ++ ['\n'])
        else st.fs k }
  else st

/-- `BrightnessController.check_ddcutil_available`: true iff `sudo ddcutil
detect` exits cleanly and its stdout contains `"Display 1"` or `"Display 2"`;
`CalledProcessError` and `FileNotFoundError` are both caught and yield false. -/
def check_ddcutil_available (env : CmdOutcome) : Bool :=
  match env with
  | .ok out =>
    if pyIn (strL "Display 1") out || pyIn (strL "Display 2") out then true else false
  | .fail => false

/-- Modelled from the spec: the probe "succeeds only if the command exits
cleanly AND its output names at least one display", where the discovery
output "lists displays with Display N ... lines".  An output names a display
when some line starts with "Display " followed by a digit. -/
def spec_names_a_display (out : StrL) : Bool :=
  (out.splitOn '\n').any (fun l =>
    (strL "Display ").isPrefixOf l &&
      (match l.drop 8 with
       | c :: _ => c.isDigit
       | [] => false))

/-- The `xrandr --listmonitors` parse inside
`BrightnessController.get_xrandr_monitors`: skip the header line; for each
non-blank line whose whitespace split has at least 4 fields, field 3 is the
monitor name. -/
def xrandrListMonitorsParse (out : StrL) : List Monitor :=
  ((out.splitOn '\n').drop 1).filterMap (fun line =>
    if pyStrip line ≠ [] then
      let parts := pyWords (pyStrip line)
      if 4 ≤ parts.length then
        let nm := parts.getD 3 []
        some ⟨nm, pyTitle (pyReplaceChar '-' ' ' nm), none⟩
      else none
    else none)

/-- One line of the plain `xrandr` fallback parse: a line containing
`" connected"` contributes its first whitespace-separated word; `line.split()[0]`
on an empty split would raise `IndexError` (uncaught in the source). -/
def xrandrConnectedStep (acc : List Monitor) (line : StrL) :
    Except PyErr (List Monitor) :=
  if pyIn (strL " connected") line then
    match pyWords line with
    | [] => .error PyErr.indexError
    | w :: _ => .ok (acc ++ [⟨w, pyTitle (pyReplaceChar '-' ' ' w), none⟩])
  else .ok acc

/-- `BrightnessController.get_xrandr_monitors` as a function of the outcomes
of `xrandr --listmonitors` (first tier) and plain `xrandr` (second tier).
Only `CalledProcessError` is caught, triggering the next tier; when both
commands fail the synthetic default monitor is returned. -/
def get_xrandr_monitors (o1 o2 : CmdOutcome) : Except PyErr (List Monitor) :=
  match o1 with
  | .ok out => .ok (xrandrListMonitorsParse out)
  | .fail =>
    match o2 with
    | .ok out2 => (out2.splitOn '\n').foldlM xrandrConnectedStep []
    | .fail => .ok [⟨strL "default", strL "Default Monitor", none⟩]

/-- The getvcp-output parse inside `BrightnessController.get_ddcutil_brightness`:
find the first line containing `"current value"` and extract the current and
max integers.  `none` covers every caught exception of that `try` block
(`IndexError` from a missing split piece, `ValueError` from `int`), each of
which the source answers with the cache fallback. -/
def parseVcp (out : StrL) : Option (ℤ × ℤ) :=
  match (out.splitOn '\n').find? (fun l => pyIn (strL "current value") l) with
  | none => none
  | some line =>
    match pySplitSeq (strL "current value = ") line with
    | _ :: parts :: _ =>
      match pyInt ((pySplitSeq (strL ",") parts).getD 0 []) with
      | none => none
      | some current =>
        match pySplitSeq (strL "max value = ") parts with
        | _ :: maxPart :: _ =>
          match pyInt maxPart with
          | none => none
          | some mx => some (current, mx)
        | _ => none
    | _ => none

/-- `BrightnessController.get_ddcutil_brightness`.  The division
`current / max_val` raises `ZeroDivisionError` when `max_val = 0`, and that
exception is not in the `except` clause, so it escapes. -/
def get_ddcutil_brightness (st : Controller) (monitor : StrL) (env : CmdOutcome) :
    Except PyErr (ℚ × Controller) :=
  match (st.monitors.find? (fun mon => mon.name == monitor)).bind Monitor.ddcutil_id with
  | none => .ok (dictGetD st.brightness_cache monitor 1, st)
  | some [] => .ok (dictGetD st.brightness_cache monitor 1, st)
  | some (_ :: _) =>
    match env with
    | .fail => .ok (dictGetD st.brightness_cache monitor 1, st)
    | .ok out =>
      match parseVcp out with
      | none => .ok (dictGetD st.brightness_cache monitor 1, st)
      | some (cur, mx) =>
        if mx = 0 then .error PyErr.zeroDivision
        else
          let b : ℚ := Rat.divInt cur mx
          .ok (b, { st with brightness_cache := dictInsert monitor b st.brightness_cache })

/-- `BrightnessController.get_brightness`: serve from the cache file when it
parses; otherwise query the backend (ddcutil, or the in-memory value with
default `1.0` for the xrandr fallback), write the result back to the cache
file, and return it. -/
def get_brightness (st : Controller) (monitor : StrL) (env : CmdOutcome) :
    Except PyErr (ℚ × Controller) :=
  match read_cached_brightness st monitor with
  | some cached => .ok (cached, st)
  | none =>
    if st.use_ddcutil then
      match get_ddcutil_brightness st monitor env with
      | .error e => .error e
      | .ok (b, st1) => .ok (b, write_cached_brightness st1 monitor b)
    else
      let b := dictGetD st.brightness_cache monitor 1
      .ok (b, write_cached_brightness st monitor b)

/-- `BrightnessController.set_brightness`: clamp to `[0.1, 1.0]`, write the
cache file, update the in-memory view, enqueue the pending hardware write
(overwriting any previous entry for the monitor), return `True`. -/
def set_brightness (st : Controller) (monitor : StrL) (brightness : ℚ) (now : ℕ) :
    Controller × Bool :=
  let b := max (Rat.divInt 1 10) (min 1 brightness)
  let st1 := write_cached_brightness st monitor b
  let st2 := { st1 with brightness_cache := dictInsert monitor b st1.brightness_cache }
  let st3 := { st2 with pending_changes := dictInsert monitor (b, now) st2.pending_changes }
  (st3, true)

/-- One iteration of `BrightnessController._worker_loop`: swap out the whole
pending map and return the ordered sequence of hardware apply calls
`(monitor, brightness)` it performs, together with the drained state. -/
def worker_sweep (st : Controller) : List (StrL × ℚ) × Controller :=
  (st.pending_changes.map (fun p => (p.1, p.2.1)), { st with pending_changes := [] })

/-! ## The `--brightness-step` branch of `main` -/

def invalidStepMsg (arg : StrL) : StrL := strL "Invalid brightness step: " ++ arg

def adjustedMsg (m : StrL) (nb : ℚ) : StrL :=
  strL "Adjusted brightness for " ++ m ++ strL " to " ++ fmtQ0 (nb * 100) ++ ['%']

def failedAdjustMsg (m : StrL) : StrL := strL "Failed to adjust brightness for " ++ m

/-- The per-monitor loop of the `--brightness-step` branch of `main`:
`float(step)` failing with `ValueError` prints the invalid-step message and
moves on; otherwise read, clamp `current + step`, set, and print. -/
def cliStepGo (arg : StrL) (env : CmdOutcome) (now : ℕ) :
    Controller → List StrL → List StrL → Except PyErr (Controller × List StrL)
  | st, msgs, [] => .ok (st, msgs)
  | st, msgs, m :: rest =>
    match pyFloat arg with
    | none => cliStepGo arg env now st (msgs ++ [invalidStepMsg arg]) rest
    | some step =>
      match get_brightness st m env with
      | .error e => .error e
      | .ok (current, st1) =>
        let nb := max (Rat.divInt 1 10) (min 1 (current + step))
        let res := set_brightness st1 m nb now
        let msg := if res.2 then adjustedMsg m nb else failedAdjustMsg m
        cliStepGo arg env now res.1 (msgs ++ [msg]) rest

/-- The `--brightness-step` branch of `main`: run the loop over the selected
monitors and return `(final state, printed messages, process exit code)`.
`main` simply returns afterwards, so the process exit code is 0. -/
def cliBrightnessStep (arg : StrL) (st : Controller) (ms : List StrL)
    (env : CmdOutcome) (now : ℕ) : Except PyErr (Controller × List StrL × ℕ) :=
  (cliStepGo arg env now st [] ms).map (fun p => (p.1, p.2, 0))

/-! ## Observation helpers -/

def getErr {α : Type} : Except PyErr α → Option PyErr
  | .error e => some e
  | .ok _ => none

def getVal : Except PyErr (ℚ × Controller) → Option ℚ
  | .error _ => none
  | .ok p => some p.1

/-! ## Concrete states used by witnesses and counterexamples -/

def emptyFs : StrL → CacheFileState := fun _ => CacheFileState.absent

/-- A freshly constructed controller on the xrandr fallback path with an
empty, writable cache directory. -/
def baseSt : Controller :=
  { use_ddcutil := false, monitors := [], brightness_cache := [],
    pending_changes := [], fs := emptyFs, fsWritable := true }

/-- A controller on the ddcutil path with one hardware monitor. -/
def ddcSt : Controller :=
  { baseSt with
    use_ddcutil := true,
    monitors := [⟨strL "display-1", strL "DELL (Display 1)", some (strL "1")⟩] }

/-- A fresh process sharing only the cache directory. -/
def freshController (fsys : StrL → CacheFileState) : Controller :=
  { use_ddcutil := false, monitors := [], brightness_cache := [],
    pending_changes := [], fs := fsys, fsWritable := true }

/-! ## Helper lemmas: rationals -/

theorem divInt_one_ten : Rat.divInt 1 10 = 1 / 10 := by
  rw [Rat.divInt_eq_div]; norm_num

theorem clamp_lower (v : ℚ) : 1 / 10 ≤ max (1 / 10) (min 1 v) := le_max_left _ _

theorem clamp_upper (v : ℚ) : max (1 / 10) (min 1 v) ≤ 1 :=
  max_le (by norm_num) (min_le_left _ _)

theorem clamp_eq_self {v : ℚ} (h1 : 1 / 10 ≤ v) (h2 : v ≤ 1) :
    max (1 / 10) (min 1 v) = v := by
  rw [min_eq_right h2, max_eq_right h1]

/-! ## Helper lemmas: dictionaries -/

theorem dictInsert_cons_eq {V : Type} (t : List (StrL × V)) (k k1 : StrL) (v v1 : V)
    (h : k1 = k) : dictInsert k v ((k1, v1) :: t) = (k, v) :: t := by
  simp only [dictInsert, if_pos h]

theorem dictInsert_cons_ne {V : Type} (t : List (StrL × V)) (k k1 : StrL) (v v1 : V)
    (h : ¬k1 = k) : dictInsert k v ((k1, v1) :: t) = (k1, v1) :: dictInsert k v t := by
  simp only [dictInsert, if_neg h]

theorem dictGet_insert_self {V : Type} (l : List (StrL × V)) (k : StrL) (v : V) :
    dictGet (dictInsert k v l) k = some v := by
  induction l with
  | nil => simp only [dictInsert, dictGet, if_pos]
  | cons p t ih =>
    obtain ⟨k1, v1⟩ := p
    by_cases h : k1 = k
    · rw [dictInsert_cons_eq t k k1 v v1 h]
      simp only [dictGet, if_pos]
    · rw [dictInsert_cons_ne t k k1 v v1 h]
      simp only [dictGet, if_neg h]
      exact ih

theorem mem_keys_dictInsert {V : Type} (l : List (StrL × V)) (k k1 : StrL) (v : V)
    (hm : k1 ∈ (dictInsert k v l).map Prod.fst) : k1 ∈ l.map Prod.fst ∨ k1 = k := by
  induction l with
  | nil =>
    right
    rw [show dictInsert k v ([] : List (StrL × V)) = [(k, v)] from rfl] at hm
    rw [List.map_cons, List.map_nil, List.mem_singleton] at hm
    exact hm
  | cons p t ih =>
    obtain ⟨k2, v2⟩ := p
    by_cases h : k2 = k
    · rw [dictInsert_cons_eq t k k2 v v2 h, List.map_cons, List.mem_cons] at hm
      rcases hm with h1 | h1
      · exact Or.inr h1
      · exact Or.inl (by rw [List.map_cons, List.mem_cons]; exact Or.inr h1)
    · rw [dictInsert_cons_ne t k k2 v v2 h, List.map_cons, List.mem_cons] at hm
      rcases hm with h1 | h1
      · exact Or.inl (by rw [List.map_cons, List.mem_cons]; exact Or.inl h1)
      · rcases ih h1 with h2 | h2
        · exact Or.inl (by rw [List.map_cons, List.mem_cons]; exact Or.inr h2)
        · exact Or.inr h2

theorem dictInsert_keys_nodup {V : Type} (l : List (StrL × V)) (k : StrL) (v : V)
    (h : (l.map Prod.fst).Nodup) : ((dictInsert k v l).map Prod.fst).Nodup := by
  induction l with
  | nil =>
    rw [show dictInsert k v ([] : List (StrL × V)) = [(k, v)] from rfl]
    exact List.nodup_singleton k
  | cons p t ih =>
    obtain ⟨k2, v2⟩ := p
    rw [List.map_cons, List.nodup_cons] at h
    by_cases hk : k2 = k
    · subst hk
      rw [dictInsert_cons_eq t k2 k2 v v2 rfl, List.map_cons, List.nodup_cons]
      exact h
    · rw [dictInsert_cons_ne t k k2 v v2 hk, List.map_cons, List.nodup_cons]
      refine ⟨fun hm => ?_, ih h.2⟩
      rcases mem_keys_dictInsert t k k2 v hm with h1 | h1
      · exact h.1 h1
      · exact hk h1

theorem dictInsert_absorb {V : Type} (l : List (StrL × V)) (k : StrL) (v w : V) :
    dictInsert k v (dictInsert k w l) = dictInsert k v l := by
  induction l with
  | nil =>
    rw [show dictInsert k w ([] : List (StrL × V)) = [(k, w)] from rfl]
    rw [dictInsert_cons_eq [] k k v w rfl]
    rfl
  | cons p t ih =>
    obtain ⟨k2, v2⟩ := p
    by_cases hk : k2 = k
    · rw [dictInsert_cons_eq t k k2 w v2 hk, dictInsert_cons_eq t k k v w rfl,
        dictInsert_cons_eq t k k2 v v2 hk]
    · rw [dictInsert_cons_ne t k k2 w v2 hk, dictInsert_cons_ne _ k k2 v v2 hk,
        dictInsert_cons_ne t k k2 v v2 hk, ih]

theorem filter_applies_not_mem (l : List (StrL × (ℚ × ℕ))) (k : StrL)
    (h : k ∉ l.map Prod.fst) :
    (l.map (fun p => (p.1, p.2.1))).filter (fun p => decide (p.1 = k)) = [] := by
  induction l with
  | nil => rfl
  | cons p t ih =>
    obtain ⟨k2, v2⟩ := p
    rw [List.map_cons, List.mem_cons, not_or] at h
    rw [List.map_cons, List.filter_cons]
    have hd : (decide ((k2, v2.1).1 = k)) = false := by
      refine decide_eq_false ?_
      exact fun hh => h.1 hh.symm
    rw [hd]
    simp only [Bool.false_eq_true, if_false]
    exact ih h.2

theorem filter_applies_insert (l : List (StrL × (ℚ × ℕ))) (k : StrL) (b : ℚ) (t : ℕ)
    (h : (l.map Prod.fst).Nodup) :
    ((dictInsert k (b, t) l).map (fun p => (p.1, p.2.1))).filter
        (fun p => decide (p.1 = k)) = [(k, b)] := by
  induction l with
  | nil =>
    rw [show dictInsert k (b, t) ([] : List (StrL × (ℚ × ℕ))) = [(k, (b, t))] from rfl]
    rw [List.map_cons, List.map_nil, List.filter_cons]
    rw [decide_eq_true (show ((k, b)).1 = k from rfl)]
    rfl
  | cons p tl ih =>
    obtain ⟨k2, v2⟩ := p
    rw [List.map_cons, List.nodup_cons] at h
    by_cases hk : k2 = k
    · subst hk
      rw [dictInsert_cons_eq tl k2 k2 (b, t) v2 rfl, List.map_cons, List.filter_cons]
      rw [decide_eq_true (show ((k2, b)).1 = k2 from rfl)]
      simp only [if_true]
      rw [filter_applies_not_mem tl k2 h.1]
    · rw [dictInsert_cons_ne tl k k2 (b, t) v2 hk, List.map_cons, List.filter_cons]
      have hd : (decide ((k2, v2.1).1 = k)) = false := decide_eq_false hk
      rw [hd]
      simp only [Bool.false_eq_true, if_false]
      exact ih h.2

/-! ## Helper lemmas: controller state projections -/

theorem write_cached_pending (st : Controller) (m : StrL) (b : ℚ) :
    (write_cached_brightness st m b).pending_changes = st.pending_changes := by
  unfold write_cached_brightness; split <;> rfl

theorem write_cached_cache (st : Controller) (m : StrL) (b : ℚ) :
    (write_cached_brightness st m b).brightness_cache = st.brightness_cache := by
  unfold write_cached_brightness; split <;> rfl

theorem write_cached_fs_key (st : Controller) (m : StrL) (b : ℚ)
    (hw : st.fsWritable = true) :
    (write_cached_brightness st m b).fs (get_cache_file m)
      = CacheFileState.present (fmtQ2 b ++ ['\n']) := by
  unfold write_cached_brightness
  rw [if_pos hw]
  simp

theorem set_brightness_pending (st : Controller) (m : StrL) (v : ℚ) (now : ℕ) :
    (set_brightness st m v now).1.pending_changes
      = dictInsert m (max (1 / 10) (min 1 v), now) st.pending_changes := by
  simp [set_brightness, write_cached_pending, divInt_one_ten]

theorem set_brightness_cache (st : Controller) (m : StrL) (v : ℚ) (now : ℕ) :
    (set_brightness st m v now).1.brightness_cache
      = dictInsert m (max (1 / 10) (min 1 v)) st.brightness_cache := by
  simp [set_brightness, write_cached_cache, divInt_one_ten]

theorem set_brightness_fs_key (st : Controller) (m : StrL) (v : ℚ) (now : ℕ)
    (hw : st.fsWritable = true) :
    (set_brightness st m v now).1.fs (get_cache_file m)
      = CacheFileState.present (fmtQ2 (max (1 / 10) (min 1 v)) ++ ['\n']) := by
  simp [set_brightness, write_cached_fs_key _ _ _ hw, divInt_one_ten]

/-! ## Bounds used by witnesses -/

theorem seven_tenths_lb : (1 : ℚ) / 10 ≤ Rat.divInt 7 10 := by
  rw [← divInt_one_ten]; decide

theorem seven_tenths_ub : Rat.divInt 7 10 ≤ 1 := by decide

/-! ## Claim C7 -/

/-- C7: for every monitor id `m` and float `v`, `set_brightness m v` clamps
`v` to `[0.1, 1.0]` (so `0.1 ≤ clamp v ≤ 1.0`), performs the durable cache
write of the clamped value (serialised at two decimal places, as the cache
stores it), updates the in-memory view, enqueues one pending hardware write
with the clamped value, and returns `True`. -/
theorem set_brightness_contract (st : Controller) (m : StrL) (v : ℚ) (now : ℕ)
    (hw : st.fsWritable = true) :
    1 / 10 ≤ max (1 / 10) (min 1 v) ∧
    max (1 / 10) (min 1 v) ≤ 1 ∧
    (set_brightness st m v now).2 = true ∧
    dictGet (set_brightness st m v now).1.brightness_cache m
      = some (max (1 / 10) (min 1 v)) ∧
    dictGet (set_brightness st m v now).1.pending_changes m
      = some (max (1 / 10) (min 1 v), now) ∧
    (set_brightness st m v now).1.fs (get_cache_file m)
      = CacheFileState.present (fmtQ2 (max (1 / 10) (min 1 v)) ++ ['\n']) := by
  refine ⟨clamp_lower v, clamp_upper v, rfl, ?_, ?_, ?_⟩
  · rw [set_brightness_cache]; exact dictGet_insert_self _ _ _
  · rw [set_brightness_pending]; exact dictGet_insert_self _ _ _
  · exact set_brightness_fs_key st m v now hw

/-- C7 witness: the contract evaluated at a fresh controller with `v = 1/2`. -/
theorem set_brightness_contract_witness :
    1 / 10 ≤ max (1 / 10) (min 1 (Rat.divInt 1 2)) ∧
    max (1 / 10) (min 1 (Rat.divInt 1 2)) ≤ 1 ∧
    (set_brightness baseSt (strL "m") (Rat.divInt 1 2) 0).2 = true ∧
    dictGet (set_brightness baseSt (strL "m") (Rat.divInt 1 2) 0).1.brightness_cache (strL "m")
      = some (max (1 / 10) (min 1 (Rat.divInt 1 2))) ∧
    dictGet (set_brightness baseSt (strL "m") (Rat.divInt 1 2) 0).1.pending_changes (strL "m")
      = some (max (1 / 10) (min 1 (Rat.divInt 1 2)), 0) ∧
    (set_brightness baseSt (strL "m") (Rat.divInt 1 2) 0).1.fs (get_cache_file (strL "m"))
      = CacheFileState.present (fmtQ2 (max (1 / 10) (min 1 (Rat.divInt 1 2))) ++ ['\n']) :=
  set_brightness_contract baseSt (strL "m") (Rat.divInt 1 2) 0 rfl

/-! ## Claim C2 -/

/-- C2: a second `set_brightness m v2` issued before the worker wakes
overwrites the earlier pending value for `m` (the pending map keeps at most
one entry per monitor), and one worker sweep then performs exactly one
hardware apply call for `m`, carrying the latest value `v2`. -/
theorem pending_coalesces_last_write_wins (st : Controller) (m : StrL)
    (v1 v2 : ℚ) (t1 t2 : ℕ)
    (hnd : (st.pending_changes.map Prod.fst).Nodup)
    (h1 : 1 / 10 ≤ v2) (h2 : v2 ≤ 1) :
    ((set_brightness (set_brightness st m v1 t1).1 m v2 t2).1.pending_changes.map
        Prod.fst).Nodup ∧
    dictGet (set_brightness (set_brightness st m v1 t1).1 m v2 t2).1.pending_changes m
      = some (v2, t2) ∧
    (worker_sweep (set_brightness (set_brightness st m v1 t1).1 m v2 t2).1).1.filter
        (fun p => decide (p.1 = m)) = [(m, v2)] ∧
    (worker_sweep (set_brightness (set_brightness st m v1 t1).1 m v2 t2).1).2.pending_changes
      = [] := by
  have hc : max (1 / 10) (min 1 v2) = v2 := clamp_eq_self h1 h2
  have hp : (set_brightness (set_brightness st m v1 t1).1 m v2 t2).1.pending_changes
      = dictInsert m (v2, t2) st.pending_changes := by
    rw [set_brightness_pending, set_brightness_pending, hc, dictInsert_absorb]
  refine ⟨?_, ?_, ?_, rfl⟩
  · rw [hp]; exact dictInsert_keys_nodup _ _ _ hnd
  · rw [hp]; exact dictGet_insert_self _ _ _
  · have hsw : (worker_sweep (set_brightness (set_brightness st m v1 t1).1 m v2 t2).1).1
        = ((set_brightness (set_brightness st m v1 t1).1 m v2 t2).1.pending_changes.map
            (fun p => (p.1, p.2.1))) := rfl
    rw [hsw, hp]
    exact filter_applies_insert _ _ _ _ hnd

/-- C2 witness: the coalescing behaviour evaluated at a fresh controller for
the spec scenario `set 0.3` then `set 0.7`. -/
theorem pending_coalesces_last_write_wins_witness :
    ((set_brightness (set_brightness baseSt (strL "m") (Rat.divInt 3 10) 0).1 (strL "m")
        (Rat.divInt 7 10) 1).1.pending_changes.map Prod.fst).Nodup ∧
    dictGet (set_brightness (set_brightness baseSt (strL "m") (Rat.divInt 3 10) 0).1 (strL "m")
        (Rat.divInt 7 10) 1).1.pending_changes (strL "m") = some (Rat.divInt 7 10, 1) ∧
    (worker_sweep (set_brightness (set_brightness baseSt (strL "m") (Rat.divInt 3 10) 0).1
        (strL "m") (Rat.divInt 7 10) 1).1).1.filter (fun p => decide (p.1 = strL "m"))
      = [(strL "m", Rat.divInt 7 10)] ∧
    (worker_sweep (set_brightness (set_brightness baseSt (strL "m") (Rat.divInt 3 10) 0).1
        (strL "m") (Rat.divInt 7 10) 1).1).2.pending_changes = [] :=
  pending_coalesces_last_write_wins baseSt (strL "m") (Rat.divInt 3 10) (Rat.divInt 7 10)
    0 1 List.nodup_nil seven_tenths_lb seven_tenths_ub

/-! ## Claim C9 -/

/-- C9: writing brightness `0.42` to the cache and reading it back from a
fresh process sharing the same cache directory returns exactly `0.42` (the
two-decimal persisted precision represents `0.42` exactly). -/
theorem cache_round_trip (st : Controller) (m : StrL) (hw : st.fsWritable = true) :
    read_cached_brightness
        (freshController (write_cached_brightness st m (Rat.divInt 42 100)).fs) m
      = some (42 / 100) := by
  have h42 : (42 : ℚ) / 100 = Rat.divInt 42 100 := by rw [Rat.divInt_eq_div]; norm_num
  rw [h42]
  show readFileState ((write_cached_brightness st m (Rat.divInt 42 100)).fs (get_cache_file m))
      = some (Rat.divInt 42 100)
  rw [write_cached_fs_key st m _ hw]
  decide

/-- C9 witness: the round trip evaluated at a fresh controller. -/
theorem cache_round_trip_witness :
    read_cached_brightness
        (freshController (write_cached_brightness baseSt (strL "m") (Rat.divInt 42 100)).fs)
        (strL "m")
      = some (42 / 100) :=
  cache_round_trip baseSt (strL "m") rfl

/-! ## Claim C10 -/

/-- C10: the storage-key sanitisation replaces only `/` and space with `_`,
so it is not injective: the distinct monitor ids `"a/b"` and `"a_b"` map to
the same cache file, and a cache write for `"a/b"` (here of `0.3`) is
observed by a subsequent cache read for `"a_b"`. -/
theorem cache_key_sanitization_collision :
    get_cache_file (strL "a/b") = get_cache_file (strL "a_b") ∧
    strL "a/b" ≠ strL "a_b" ∧
    read_cached_brightness
        (write_cached_brightness baseSt (strL "a/b") (Rat.divInt 3 10)) (strL "a_b")
      = some (Rat.divInt 3 10) :=
  ⟨by decide, by decide, by decide⟩

/-! ## The format/parse round trip of the cache file -/

theorem pyFloat_cents : ∀ n : ℕ, n < 101 →
    pyFloat (pyStrip (centsToChars n ++ ['\n'])) = some (Rat.divInt n 100) := by decide

theorem rheFrac_bounds_int (n : ℤ) (d : ℕ) (hd : 0 < d)
    (hlo : 10 * (d : ℤ) ≤ n) (hhi : n ≤ 100 * (d : ℤ)) :
    10 ≤ rheFrac n d ∧ rheFrac n d ≤ 100 := by
  have hdz : (d : ℤ) ≠ 0 := by exact_mod_cast hd.ne'
  have hdzpos : (0 : ℤ) < (d : ℤ) := by exact_mod_cast hd
  have heq : (d : ℤ) * (n.ediv d) + n.emod d = n := Int.ediv_add_emod n d
  have hr0 : 0 ≤ n.emod (d : ℤ) := Int.emod_nonneg n hdz
  have hrd : n.emod (d : ℤ) < d := Int.emod_lt_of_pos n hdzpos
  have hf10 : 10 ≤ n.ediv (d : ℤ) := by
    by_contra hcon
    push_neg at hcon
    have h9 : n.ediv (d : ℤ) ≤ 9 := by omega
    have hm : (d : ℤ) * (n.ediv d) ≤ (d : ℤ) * 9 :=
      mul_le_mul_of_nonneg_left h9 hdzpos.le
    linarith
  have hf100 : n.ediv (d : ℤ) ≤ 100 := by
    by_contra hcon
    push_neg at hcon
    have h101 : 101 ≤ n.ediv (d : ℤ) := by omega
    have hm : (d : ℤ) * 101 ≤ (d : ℤ) * (n.ediv d) :=
      mul_le_mul_of_nonneg_left h101 hdzpos.le
    linarith
  have hf99 : 1 ≤ n.emod (d : ℤ) → n.ediv (d : ℤ) ≤ 99 := by
    intro hr1
    by_contra hcon
    push_neg at hcon
    have h100 : 100 ≤ n.ediv (d : ℤ) := by omega
    have hm : (d : ℤ) * 100 ≤ (d : ℤ) * (n.ediv d) :=
      mul_le_mul_of_nonneg_left h100 hdzpos.le
    linarith
  simp only [rheFrac]
  split_ifs with hc1 hc2 hc3
  · exact ⟨hf10, hf100⟩
  · have hr1 : 1 ≤ n.emod (d : ℤ) := by omega
    exact ⟨by omega, by have := hf99 hr1; omega⟩
  · exact ⟨hf10, hf100⟩
  · have hr1 : 1 ≤ n.emod (d : ℤ) := by omega
    exact ⟨by omega, by have := hf99 hr1; omega⟩

theorem rhe100_bounds (q : ℚ) (h1 : 1 / 10 ≤ q) (h2 : q ≤ 1) :
    10 ≤ rhe100 q ∧ rhe100 q ≤ 100 := by
  have hq1 : Rat.divInt 1 10 ≤ q := by rw [divInt_one_ten]; exact h1
  have hnum1 := Rat.le_def.mp hq1
  have e1 : (Rat.divInt 1 10).num = 1 := by decide
  have e2 : (Rat.divInt 1 10).den = 10 := by decide
  rw [e1, e2] at hnum1
  have hnum2 := Rat.le_def.mp h2
  have e3 : (1 : ℚ).num = 1 := by decide
  have e4 : (1 : ℚ).den = 1 := by decide
  rw [e3, e4] at hnum2
  have hlo : 10 * (q.den : ℤ) ≤ 100 * q.num := by push_cast at hnum1 ⊢; linarith
  have hhi : 100 * q.num ≤ 100 * (q.den : ℤ) := by push_cast at hnum2 ⊢; linarith
  exact rheFrac_bounds_int (100 * q.num) q.den q.den_pos hlo hhi

theorem readFileState_fmtQ2 (b : ℚ) (h1 : 1 / 10 ≤ b) (h2 : b ≤ 1) :
    readFileState (CacheFileState.present (fmtQ2 b ++ ['\n']))
      = some (Rat.divInt (rhe100 b) 100) := by
  obtain ⟨hlo, hhi⟩ := rhe100_bounds b h1 h2
  have hb0 : (0 : ℚ) ≤ b := le_trans (by norm_num) h1
  have hnum : ¬b.num < 0 := by rw [not_lt]; exact Rat.num_nonneg.mpr hb0
  have hf : fmtQ2 b = centsToChars (rhe100 b).toNat := by
    simp only [fmtQ2, if_neg hnum]
  rw [hf]
  have hN : (rhe100 b).toNat < 101 := by omega
  have hparse := pyFloat_cents (rhe100 b).toNat hN
  simp only [readFileState]
  rw [hparse]
  have hcast : (((rhe100 b).toNat : ℕ) : ℤ) = rhe100 b := Int.toNat_of_nonneg (by omega)
  rw [hcast]
  have hv1 : Rat.divInt (rhe100 b) 100 ≤ 1 := by
    rw [Rat.divInt_eq_div]
    rw [div_le_one (by norm_num : (0 : ℚ) < ((100 : ℤ) : ℚ))]
    exact_mod_cast hhi
  have hv0 : (0 : ℚ) ≤ Rat.divInt (rhe100 b) 100 := by
    rw [Rat.divInt_eq_div]
    apply div_nonneg
    · exact_mod_cast (by omega : (0 : ℤ) ≤ rhe100 b)
    · norm_num
  show some (max 0 (min 1 (Rat.divInt (rhe100 b) 100))) = some (Rat.divInt (rhe100 b) 100)
  rw [min_eq_right hv1, max_eq_right hv0]

/-! ## Claim C1 -/

/-- C1 amended: `set_brightness m v` immediately followed by
`get_brightness m` (before the worker sweeps) returns `clamp v` rounded to
two decimal places — the precision at which the cache file that serves the
read persists the value — rather than `clamp v` exactly. -/
theorem set_then_get_returns_rounded (st : Controller) (m : StrL) (v : ℚ) (now : ℕ)
    (env : CmdOutcome) (hw : st.fsWritable = true) :
    getVal (get_brightness (set_brightness st m v now).1 m env)
      = some ((rhe100 (max (1 / 10) (min 1 v)) : ℚ) / 100) := by
  have hread : read_cached_brightness (set_brightness st m v now).1 m
      = some (Rat.divInt (rhe100 (max (1 / 10) (min 1 v))) 100) := by
    unfold read_cached_brightness
    rw [set_brightness_fs_key st m v now hw]
    exact readFileState_fmtQ2 _ (clamp_lower v) (clamp_upper v)
  unfold get_brightness
  rw [hread]
  show some (Rat.divInt (rhe100 (max (1 / 10) (min 1 v))) 100) = _
  rw [Rat.divInt_eq_div]
  norm_num

/-- C1 witness: the amended read-your-write behaviour evaluated at a fresh
controller with requested value 0.554. -/
theorem set_then_get_returns_rounded_witness :
    getVal (get_brightness (set_brightness baseSt (strL "m") (Rat.divInt 554 1000) 0).1
        (strL "m") CmdOutcome.fail)
      = some ((rhe100 (max (1 / 10) (min 1 (Rat.divInt 554 1000))) : ℚ) / 100) :=
  set_then_get_returns_rounded baseSt (strL "m") (Rat.divInt 554 1000) 0 CmdOutcome.fail rfl

/-- C1 counterexample: with requested value 0.554 — for which
`clamp v = 0.554` — the immediate read back returns 0.55, the two-decimal
persisted value, which differs from `clamp v`. -/
theorem set_then_get_not_exact :
    getVal (get_brightness (set_brightness baseSt (strL "m") (Rat.divInt 554 1000) 0).1
        (strL "m") CmdOutcome.fail) = some (Rat.divInt 11 20) ∧
    Rat.divInt 11 20 ≠ max (1 / 10) (min 1 (Rat.divInt 554 1000)) := by
  constructor
  · decide
  · rw [← divInt_one_ten]; decide

/-! ## Claim C6 -/

/-- C6: for every monitor id and every state of the backing cache file,
`_read_cached_brightness` never raises — it is a total function into
`Option ℚ`: a missing file yields `none`, an `IOError` on read yields `none`,
unparsable content yields `none` (the `ValueError` from `float` is caught),
and parsable content is returned clamped to `[0.0, 1.0]`. -/
theorem read_cached_brightness_contract (st : Controller) (m : StrL) (s : StrL) (v : ℚ) :
    read_cached_brightness st m = readFileState (st.fs (get_cache_file m)) ∧
    readFileState CacheFileState.absent = none ∧
    readFileState CacheFileState.unreadable = none ∧
    readFileState (CacheFileState.present s)
      = (pyFloat (pyStrip s)).map (fun x => max 0 (min 1 x)) ∧
    (0 ≤ max 0 (min 1 v) ∧ max 0 (min 1 v) ≤ 1) ∧
    (read_cached_brightness st m = none ∨
      ∃ w, read_cached_brightness st m = some w ∧ 0 ≤ w ∧ w ≤ 1) := by
  have haux : ∀ c : CacheFileState,
      readFileState c = none ∨ ∃ w, readFileState c = some w ∧ 0 ≤ w ∧ w ≤ 1 := by
    intro c
    cases c with
    | absent => exact Or.inl rfl
    | unreadable => exact Or.inl rfl
    | present s2 =>
      cases h : pyFloat (pyStrip s2) with
      | none => exact Or.inl (by simp only [readFileState, h])
      | some x =>
        refine Or.inr ⟨max 0 (min 1 x), by simp only [readFileState, h], le_max_left _ _, ?_⟩
        exact max_le (by norm_num) (min_le_left _ _)
  refine ⟨rfl, rfl, rfl, ?_, ⟨le_max_left _ _, max_le (by norm_num) (min_le_left _ _)⟩, ?_⟩
  · cases h : pyFloat (pyStrip s) with
    | none => simp only [readFileState, h, Option.map_none']
    | some x => simp only [readFileState, h, Option.map_some']
  · exact haux (st.fs (get_cache_file m))

/-! ## Claim C4 -/

theorem get_ddcutil_fail (st : Controller) (m : StrL) :
    get_ddcutil_brightness st m CmdOutcome.fail
      = .ok (dictGetD st.brightness_cache m 1, st) := by
  unfold get_ddcutil_brightness
  split <;> rfl

theorem get_ddcutil_err_shape (st : Controller) (m : StrL) (env : CmdOutcome) :
    getErr (get_ddcutil_brightness st m env) = none ∨
    getErr (get_ddcutil_brightness st m env) = some PyErr.zeroDivision := by
  unfold get_ddcutil_brightness
  repeat' split
  all_goals first | (left; rfl) | (right; rfl)

/-- C4 amended: the only exception `get_brightness` can raise to the caller
is the `ZeroDivisionError` produced when the hardware query output parses
with `max value = 0` (that error is missing from the `except` clause); on
every other read failure the cache fallback applies — in particular, a
failing query command on a cache miss returns the last-known in-memory value
or the default `1.0`. -/
theorem get_brightness_raises_only_division_by_zero (st : Controller) (m : StrL)
    (env : CmdOutcome) :
    (getErr (get_brightness st m env) = none ∨
      getErr (get_brightness st m env) = some PyErr.zeroDivision) ∧
    (read_cached_brightness st m = none → st.use_ddcutil = true →
      get_brightness st m CmdOutcome.fail
        = Except.ok (dictGetD st.brightness_cache m 1,
            write_cached_brightness st m (dictGetD st.brightness_cache m 1))) := by
  constructor
  · unfold get_brightness
    cases hr : read_cached_brightness st m with
    | some c => exact Or.inl rfl
    | none =>
      cases hd : st.use_ddcutil with
      | false => exact Or.inl rfl
      | true =>
        simp only [if_true]
        cases hg : get_ddcutil_brightness st m env with
        | error e =>
          rcases get_ddcutil_err_shape st m env with h | h <;> rw [hg] at h
          · exact absurd h (by simp [getErr])
          · right
            simp only [getErr] at h ⊢
            exact h
        | ok p => exact Or.inl rfl
  · intro hr hd
    unfold get_brightness
    rw [hr, hd]
    simp only [if_true]
    rw [get_ddcutil_fail]

/-- C4 witness: a cache miss with a failing query command returns the default
`1.0` through the amended theorem. -/
theorem get_brightness_raises_only_division_by_zero_witness :
    get_brightness ddcSt (strL "display-1") CmdOutcome.fail
      = Except.ok (1, write_cached_brightness ddcSt (strL "display-1") 1) :=
  (get_brightness_raises_only_division_by_zero ddcSt (strL "display-1")
    CmdOutcome.fail).2 rfl rfl

/-- C4 counterexample: on a cache miss, the hardware query output
`"... current value = 80, max value = 0"` makes `get_brightness` raise
`ZeroDivisionError` to the caller — the claim says it never raises. -/
theorem get_brightness_zero_max_raises :
    getErr (get_brightness ddcSt (strL "display-1")
        (CmdOutcome.ok (strL "VCP code 0x10 (Brightness): current value = 80, max value = 0")))
      = some PyErr.zeroDivision := by decide

/-! ## Claim C3 -/

/-- C3 amended: when both discovery commands fail, `get_xrandr_monitors`
returns exactly the synthetic default monitor; but when the listing command
exits cleanly with output naming no monitors, the empty sequence is returned,
so callers can observe an empty monitor set. -/
theorem get_xrandr_monitors_tiers :
    get_xrandr_monitors CmdOutcome.fail CmdOutcome.fail
      = Except.ok [⟨strL "default", strL "Default Monitor", none⟩] ∧
    get_xrandr_monitors (CmdOutcome.ok (strL "Monitors: 0")) CmdOutcome.fail
      = Except.ok ([] : List Monitor) :=
  ⟨rfl, rfl⟩

/-- C3 counterexample: `xrandr --listmonitors` exiting cleanly with the
header `"Monitors: 0"` and no monitor lines yields the empty list — not the
synthetic default monitor — refuting that `getMonitors` is non-empty for
every outcome of the discovery commands. -/
theorem get_xrandr_monitors_empty_on_empty_listing :
    get_xrandr_monitors (CmdOutcome.ok (strL "Monitors: 0")) CmdOutcome.fail
      = Except.ok ([] : List Monitor) :=
  rfl

/-! ## Claim C5 -/

/-- C5 amended: the probe returns `HardwareControl` iff the discovery command
exits cleanly and its stdout contains the substring `"Display 1"` or
`"Display 2"` — a narrower test than "names at least one display"; any
command failure yields `SoftwareFallback`. -/
theorem check_ddcutil_available_substring_probe (s : StrL) :
    check_ddcutil_available (CmdOutcome.ok s)
      = (pyIn (strL "Display 1") s || pyIn (strL "Display 2") s) ∧
    check_ddcutil_available CmdOutcome.fail = false := by
  constructor
  · cases hc : (pyIn (strL "Display 1") s || pyIn (strL "Display 2") s) <;>
      simp [check_ddcutil_available, hc]
  · rfl

/-- C5 counterexample: the output `"Display 3\n   Model: FooCorp"` names a
display (per the spec reading), yet the probe returns `SoftwareFallback`
because it only looks for the substrings `"Display 1"` and `"Display 2"`. -/
theorem check_ddcutil_available_misses_display_three :
    check_ddcutil_available (CmdOutcome.ok (strL "Display 3\n   Model: FooCorp")) = false ∧
    spec_names_a_display (strL "Display 3\n   Model: FooCorp") = true :=
  ⟨by decide, by decide⟩

/-! ## Claim C8 -/

theorem cliStepGo_invalid (arg : StrL) (env : CmdOutcome) (now : ℕ)
    (hbad : pyFloat arg = none) :
    ∀ (ms : List StrL) (st : Controller) (msgs : List StrL),
      cliStepGo arg env now st msgs ms
        = .ok (st, msgs ++ ms.map (fun _ => invalidStepMsg arg)) := by
  intro ms
  induction ms with
  | nil => intro st msgs; simp [cliStepGo]
  | cons m rest ih =>
    intro st msgs
    simp only [cliStepGo, hbad]
    rw [ih st (msgs ++ [invalidStepMsg arg])]
    simp [List.append_assoc]

/-- C8 amended: an unparsable `--brightness-step` argument is reported to the
user (the invalid-step message is printed, once per selected monitor) and no
brightness change is applied (the controller state is unchanged), but `main`
then returns normally, so the process exit code is 0 — the same exit code as
success — not the claimed non-zero code. -/
theorem cli_step_invalid_exits_zero (arg : StrL) (st : Controller) (ms : List StrL)
    (env : CmdOutcome) (now : ℕ) (hbad : pyFloat arg = none) :
    cliBrightnessStep arg st ms env now
      = .ok (st, ms.map (fun _ => invalidStepMsg arg), 0) := by
  unfold cliBrightnessStep
  rw [cliStepGo_invalid arg env now hbad ms st []]
  rfl

/-- C8 witness: the amended behaviour evaluated on the unparsable step
argument `"abc"`. -/
theorem cli_step_invalid_exits_zero_witness :
    cliBrightnessStep (strL "abc") baseSt [strL "m"] CmdOutcome.fail 0
      = .ok (baseSt, [strL "m"].map (fun _ => invalidStepMsg (strL "abc")), 0) :=
  cli_step_invalid_exits_zero (strL "abc") baseSt [strL "m"] CmdOutcome.fail 0 (by decide)

/-- C8 counterexample: with the unparsable step `"abc"`, the CLI run ends
with exit code 0 and an unchanged controller state, while the claim demands
exit code 1; `0 ≠ 1`. -/
theorem cli_step_invalid_exit_code_not_one :
    cliBrightnessStep (strL "abc") baseSt [strL "m"] CmdOutcome.fail 0
      = .ok (baseSt, [invalidStepMsg (strL "abc")], 0) ∧ (0 : ℕ) ≠ 1 :=
  ⟨rfl, by decide⟩
